import Mathlib

/-!
Shallow embedding of the Location Explorer application, covering the two
first-party source files:

* `services/geminiService.ts` — the grounding client `getPlaceInfo`: choice of
  the effective query, extraction of grounding URLs from the response,
  URL deduplication, and the error wrapper.
* `App.tsx` — the query composer and search handler `handleSearch`: prompt
  composition from search context, category filter and free text, and the
  pre-network refusal path when the current location is undetermined.

JavaScript strings are modelled as Lean `String`s; the JS `trim`,
`toLowerCase`, and string truthiness are modelled explicitly below.  The
external generative API call is modelled as an oracle parameter returning
either a response or an error; everything downstream of it is translated
directly from the source.
-/

set_option maxRecDepth 100000

/-! ## JavaScript string primitives -/

/-- Whitespace characters removed by the JavaScript `String.prototype.trim`
(the common WhiteSpace and LineTerminator code points). -/
def isJsWhitespace (c : Char) : Bool :=
  c = ' ' || c = '\t' || c = '\n' || c = '\r' || c = '\x0b' || c = '\x0c' ||
  c = ' ' || c = '﻿' || c = ' ' || c = ' '

/-- Model of the JavaScript `String.prototype.trim`: drop leading and trailing
whitespace. -/
def jsTrim (s : String) : String :=
  String.mk (((s.data.dropWhile isJsWhitespace).reverse.dropWhile isJsWhitespace).reverse)

/-- Model of the JavaScript `String.prototype.toLowerCase` (all strings it is
applied to in this program are ASCII). -/
def jsToLowerCase (s : String) : String :=
  String.mk (s.data.map Char.toLower)

/-! ## Data model (`types.ts`) -/

/-- Geographical coordinate (`LatLng` in `types.ts`).  The two coordinates in
the program are decimal literals, modelled as rationals. -/
structure LatLng where
  latitude : Rat
  longitude : Rat
  deriving DecidableEq, Repr

/-- A URL with an optional title (`GroundingUrl` in `types.ts`). -/
structure GroundingUrl where
  uri : String
  title : Option String
  deriving DecidableEq, Repr

/-- A structured place (`Place` in `types.ts`); never actually produced. -/
structure Place where
  name : String
  address : String
  description : String
  category : String
  website : Option String
  deriving DecidableEq, Repr

/-- Result of the grounding client (`MapsGroundingResult` in `types.ts`). -/
structure MapsGroundingResult where
  summary : String
  places : List Place
  urls : List GroundingUrl
  deriving DecidableEq, Repr

/-! ## Relevant shape of the third-party API response

Only the fields read by `getPlaceInfo` are modelled; every field that the
source accesses through optional chaining or a truthiness check is an
`Option`. -/

/-- A review snippet nested in a place answer source; only its `uri` is read. -/
structure ReviewSnippet where
  uri : Option String
  deriving DecidableEq, Repr

/-- A place answer source; only its `reviewSnippets` are read. -/
structure PlaceAnswerSource where
  reviewSnippets : Option (List ReviewSnippet)
  deriving DecidableEq, Repr

/-- The `maps` annotation of a grounding chunk. -/
structure GroundingChunkMaps where
  uri : Option String
  title : Option String
  placeAnswerSources : Option (List PlaceAnswerSource)
  deriving DecidableEq, Repr

/-- A grounding chunk; only its `maps` annotation is read. -/
structure GroundingChunk where
  maps : Option GroundingChunkMaps
  deriving DecidableEq, Repr

/-- Grounding metadata of a response candidate. -/
structure GroundingMetadata where
  groundingChunks : Option (List GroundingChunk)
  deriving DecidableEq, Repr

/-- A response candidate; only its grounding metadata is read. -/
structure Candidate where
  groundingMetadata : Option GroundingMetadata
  deriving DecidableEq, Repr

/-- The API response (`GenerateContentResponse`): the accessor `.text` and the
candidate list. -/
structure GenerateContentResponse where
  text : String
  candidates : Option (List Candidate)
  deriving DecidableEq, Repr

/-- An exception raised by the API call, carrying its message. -/
structure GeminiError where
  message : String
  deriving DecidableEq, Repr

/-! ## Grounding client (`services/geminiService.ts`) -/

/-- The built-in default prompt of `getPlaceInfo` (line 19 of the service). -/
def defaultPrompt : String :=
  "List key points of interest, famous landmarks, popular restaurants, and other notable locations in this area. Include details like address and a brief description for each. Provide comprehensive details."

/-- The effective query of `getPlaceInfo`:
`query.trim() || defaultPrompt` — the trimmed query when it is truthy
(non-empty), the default prompt otherwise. -/
def effectiveQuery (query : String) : String :=
  if jsTrim query = "" then defaultPrompt else jsTrim query

/-- The URLs pushed for a single grounding chunk, in push order: the direct
link (when `chunk.maps.uri` is truthy, with `chunk.maps.title` as title), then
one titleless entry per truthy `uri` of every review snippet of every place
answer source.  A chunk without a `maps` annotation contributes nothing.
The `if (x)` truthiness tests of the source make the empty string falsy. -/
def chunkUrls (chunk : GroundingChunk) : List GroundingUrl :=
  match chunk.maps with
  | none => []
  | some maps =>
    (match maps.uri with
     | some uri => if uri = "" then [] else [{ uri := uri, title := maps.title }]
     | none => []) ++
    (match maps.placeAnswerSources with
     | none => []
     | some sources =>
       sources.flatMap fun source =>
         match source.reviewSnippets with
         | none => []
         | some snippets =>
           snippets.filterMap fun snippet =>
             match snippet.uri with
             | some uri => if uri = "" then none else some { uri := uri, title := none }
             | none => none)

/-- The grounding chunks walked by the loop:
`response.candidates?.[0]?.groundingMetadata?.groundingChunks`, or the empty
list when any link of that optional chain is absent (an absent list and a
present empty list both make the loop body run zero times). -/
def responseChunks (response : GenerateContentResponse) : List GroundingChunk :=
  match response.candidates with
  | some (candidate :: _) =>
    match candidate.groundingMetadata with
    | some metadata =>
      match metadata.groundingChunks with
      | some chunks => chunks
      | none => []
    | none => []
  | _ => []

/-- The full candidate URL list `urls` accumulated by the chunk loop. -/
def candidateUrls (response : GenerateContentResponse) : List GroundingUrl :=
  (responseChunks response).flatMap chunkUrls

/-- One insertion into a JavaScript `Map` represented as an association list
in key insertion order: `set` on a present key overwrites the value in place,
`set` on an absent key appends the entry. -/
def mapInsert (m : List (String × GroundingUrl)) (k : String) (v : GroundingUrl) :
    List (String × GroundingUrl) :=
  if m.any (fun p => p.1 = k) then
    m.map (fun p => if p.1 = k then (k, v) else p)
  else
    m ++ [(k, v)]

/-- The JavaScript `new Map(urls.map((item) => [item.uri, item]))`: the entry
list built by inserting each candidate keyed by its URI. -/
def jsMapEntries (urls : List GroundingUrl) : List (String × GroundingUrl) :=
  urls.foldl (fun m item => mapInsert m item.uri item) []

/-- The deduplicated URL list
`Array.from(new Map(urls.map((item) => [item.uri, item])).values())`. -/
def dedupUrls (urls : List GroundingUrl) : List GroundingUrl :=
  (jsMapEntries urls).map Prod.snd

/-- The pure response processing of `getPlaceInfo` (lines 82 to 112): trimmed
text as summary, an always-empty `places` array, and the deduplicated URLs. -/
def processResponse (response : GenerateContentResponse) : MapsGroundingResult :=
  { summary := jsTrim response.text
    places := []
    urls := dedupUrls (candidateUrls response) }

/-- The message of the error thrown by the `catch` block of `getPlaceInfo`. -/
def fetchErrorMessage : String :=
  "Failed to fetch information. Please check your network and try again."

/-- `getPlaceInfo`: the network call is an oracle `api` receiving the
coordinate and the effective query; a response is processed into a result,
and any exception is replaced by the single generic fetch error. -/
def getPlaceInfo (targetLatLng : LatLng) (query : String)
    (api : LatLng → String → Except GeminiError GenerateContentResponse) :
    Except String MapsGroundingResult :=
  match api targetLatLng (effectiveQuery query) with
  | Except.ok response => Except.ok (processResponse response)
  | Except.error _ => Except.error fetchErrorMessage

/-! ## UI controller (`App.tsx`) -/

/-- The search context radio value: `kottayam` or `currentLocation`. -/
inductive SearchContext where
  | kottayam
  | currentLocation
  deriving DecidableEq, Repr

/-- The hardcoded default city-center coordinate (`defaultKottayamCoords`). -/
def defaultKottayamCoords : LatLng :=
  { latitude := 9.5916, longitude := 76.5050 }

/-- The filter options of the UI, as value and label pairs. -/
def filterOptions : List (String × String) :=
  [("all", "All Categories"),
   ("companies_shops", "Companies & Shops"),
   ("restaurants", "Restaurants"),
   ("attractions", "Attractions & Landmarks"),
   ("hotels", "Hotels & Accommodations"),
   ("services", "Services (e.g., banks, hospitals)")]

/-- The UI state held by the component (the `useState` hooks that
`handleSearch` reads or writes). -/
structure AppState where
  userLocation : Option LatLng
  actualUserLocationDetermined : Bool
  searchContext : SearchContext
  prompt : String
  filterCategory : String
  generalSummary : Option String
  responseUrls : List GroundingUrl
  loading : Bool
  error : Option String
  deriving DecidableEq, Repr

/-- The fixed preamble of the composed query (the template literal assigned to
`effectiveQuery` in `handleSearch`, with its embedded newlines and
indentation). -/
def queryPreamble : String :=
  "You are a helpful assistant providing local information. Provide a detailed overview of places based on the user\x27s request.\n    For each place, include its name, comprehensive address, a detailed description, and its category (e.g., Restaurant, Shop, Landmark). If available, also include a website.\n    Always prioritize comprehensive details for each listed place.\n    "

/-- `filterOptions.find(opt => opt.value === filterCategory)?.label` followed
by `?.toLowerCase()` interpolated into a template literal: the lowercased
label when the value is found, the string rendering of `undefined`
otherwise. -/
def filterLabelLower (filterCategory : String) : String :=
  match filterOptions.find? (fun opt => opt.1 = filterCategory) with
  | some opt => jsToLowerCase opt.2
  | none => "undefined"

/-- The prompt composed by `handleSearch` (lines 104 to 121): the preamble,
then the quoted trimmed free text when truthy, then either the specific
category clause or the generic multi-category clause, then the location
clause. -/
def composeQuery (searchContext : SearchContext) (filterCategory : String)
    (prompt : String) : String :=
  let currentAreaName :=
    match searchContext with
    | SearchContext.kottayam => "Kottayam city"
    | SearchContext.currentLocation => "this area near my current location"
  let withPrompt :=
    if jsTrim prompt = "" then queryPreamble
    else queryPreamble ++ "The user is looking for: \"" ++ jsTrim prompt ++ "\"."
  let withFilter :=
    if filterCategory = "all" then
      withPrompt ++ " Include various types of places such as companies, shops, restaurants, attractions, and services."
    else
      withPrompt ++ " Specifically focus on results in the \"" ++ filterLabelLower filterCategory ++ "\" category."
  withFilter ++ " Provide details for places in " ++ currentAreaName ++ "."

/-- The refusal message set when the current location is undetermined
(line 83 of `App.tsx`). -/
def currentLocationErrorMsg : String :=
  "Your current location could not be determined. Please select \x27Kottayam City\x27 or enable geolocation."

/-- The refusal message of the unreachable `if (!targetCoords)` guard
(line 89 of `App.tsx`). -/
def noTargetErrorMsg : String :=
  "Unable to determine search location. Please try again."

/-- Resolution of the target coordinate and location description by the
if-chain at the top of `handleSearch`, including its early return.  In the
`kottayam` branch and the successful `currentLocation` branch the coordinate
is always assigned, so the subsequent `if (!targetCoords)` guard of the
source can never fire. -/
def resolveTarget (s : AppState) : Except String (LatLng × String) :=
  match s.searchContext with
  | SearchContext.kottayam => Except.ok (defaultKottayamCoords, "Kottayam city")
  | SearchContext.currentLocation =>
    match s.actualUserLocationDetermined, s.userLocation with
    | true, some loc => Except.ok (loc, "your current location")
    | _, _ => Except.error currentLocationErrorMsg

/-- Outcome of the synchronous part of `handleSearch`, up to the point where
the network call would be issued: either the handler returned early with only
an error message set (`refused`, no call to `getPlaceInfo`), or it reset the
result state and is about to call `getPlaceInfo` with the given coordinate
and composed query (`proceed`). -/
inductive SearchStep where
  | refused (s : AppState)
  | proceed (s : AppState) (targetCoords : LatLng) (locationDescription : String)
      (query : String)
  deriving DecidableEq, Repr

/-- The synchronous prefix of `handleSearch`: refuse without a network call
when no target coordinate resolves, otherwise set `loading`, clear the error
and previous results, and hand the coordinate and composed query to the
network call. -/
def handleSearchStart (s : AppState) : SearchStep :=
  match resolveTarget s with
  | Except.error msg => SearchStep.refused { s with error := some msg }
  | Except.ok (coords, desc) =>
    SearchStep.proceed
      { s with loading := true, error := none, generalSummary := none, responseUrls := [] }
      coords desc (composeQuery s.searchContext s.filterCategory s.prompt)

/-! ## Specification-side descriptions used to state the claims -/

/-- The URIs of a candidate list in first-seen order, relative to a list of
URIs already seen: each distinct URI once, at the position of its first
occurrence. -/
def firstSeenUris (seen : List String) : List GroundingUrl → List String
  | [] => []
  | item :: rest =>
    if item.uri ∈ seen then firstSeenUris seen rest
    else item.uri :: firstSeenUris (item.uri :: seen) rest

/-- The last candidate entry carrying a given URI. -/
def lastEntryFor (urls : List GroundingUrl) (u : String) : Option GroundingUrl :=
  (urls.filter (fun e => e.uri = u)).getLast?

/-- The truthy review-snippet URIs nested under a `maps` annotation, in
source order: every place answer source, every review snippet, every present
non-empty `uri`. -/
def snippetUris (maps : GroundingChunkMaps) : List String :=
  (maps.placeAnswerSources.getD []).flatMap fun source =>
    (source.reviewSnippets.getD []).filterMap fun snippet =>
      match snippet.uri with
      | some uri => if uri = "" then none else some uri
      | none => none

/-- The key phrase of the generic multi-category clause. -/
def genericPhrase : String := "various types of places"

/-- The generic multi-category clause appended for the filter `all`. -/
def genericClause : String :=
  "Include various types of places such as companies, shops, restaurants, attractions, and services."

/-- Substring containment: the first string occurs contiguously in the
second. -/
def SubstringOf (needle hay : String) : Prop :=
  needle.data <:+: hay.data

instance (a b : String) : Decidable (SubstringOf a b) :=
  inferInstanceAs (Decidable (a.data <:+: b.data))

/-- Case-insensitive substring containment: the lowercased first string
occurs contiguously in the lowercased second. -/
def SubstringOfCI (needle hay : String) : Prop :=
  needle.data.map Char.toLower <:+: hay.data.map Char.toLower

instance (a b : String) : Decidable (SubstringOfCI a b) :=
  inferInstanceAs (Decidable (a.data.map Char.toLower <:+: b.data.map Char.toLower))

/-- The location clause name for each search context (the ternary on
`searchContext` assigning `currentAreaName`). -/
def areaNameOf : SearchContext → String
  | SearchContext.kottayam => "Kottayam city"
  | SearchContext.currentLocation => "this area near my current location"

/-- The category clause appended by `handleSearch` for a filter value: the
generic multi-category clause for `all`, the specific clause otherwise. -/
def categoryClause (fc : String) : String :=
  if fc = "all" then
    " Include various types of places such as companies, shops, restaurants, attractions, and services."
  else
    " Specifically focus on results in the \"" ++ filterLabelLower fc ++ "\" category."

/-- Everything of the composed prompt before the opening quote of the free
text. -/
def beforeFreeText : String := queryPreamble ++ "The user is looking for: "

/-- Everything of the composed prompt after the closing quote of the free
text. -/
def afterFreeText (fc : String) (ctx : SearchContext) : String :=
  "." ++ categoryClause fc ++ " Provide details for places in " ++ areaNameOf ctx ++ "."

/-! ## Concrete example data -/

/-- A response in which the same URI occurs first as a direct chunk link with
a title and then as a titleless review-snippet link. -/
def dupResponse : GenerateContentResponse :=
  { text := "Here are some places."
    candidates := some
      [{ groundingMetadata := some
          { groundingChunks := some
              [{ maps := some
                  { uri := some "https://maps.example/place1"
                    title := some "Place One"
                    placeAnswerSources := none } },
               { maps := some
                  { uri := none
                    title := none
                    placeAnswerSources := some
                      [{ reviewSnippets := some
                          [{ uri := some "https://maps.example/place1" }] }] } }] } }] }

/-- A response with no grounding chunks at all. -/
def bareResponse : GenerateContentResponse :=
  { text := "  Just a summary.  ", candidates := none }

/-- An API oracle that always fails with a short error whose message happens
to occur inside the generic fetch error message. -/
def failingApi : LatLng → String → Except GeminiError GenerateContentResponse :=
  fun _ _ => Except.error { message := "network" }

/-- An API oracle that always succeeds with the bare response. -/
def succeedingApi : LatLng → String → Except GeminiError GenerateContentResponse :=
  fun _ _ => Except.ok bareResponse

/-- A UI state in current-location mode whose coordinate was never actually
determined. -/
def undeterminedState : AppState :=
  { userLocation := none
    actualUserLocationDetermined := false
    searchContext := SearchContext.currentLocation
    prompt := "coffee"
    filterCategory := "restaurants"
    generalSummary := some "old summary"
    responseUrls := [{ uri := "https://maps.example/old", title := none }]
    loading := false
    error := none }

/-- A grounding chunk with no `maps` annotation. -/
def plainChunk : GroundingChunk := { maps := none }

/-- A `maps` annotation with no top-level URI but two review snippets, one of
them without a URI. -/
def snippetOnlyMaps : GroundingChunkMaps :=
  { uri := none
    title := none
    placeAnswerSources := some
      [{ reviewSnippets := some
          [{ uri := some "https://maps.example/review1" }, { uri := none }] },
       { reviewSnippets := some [{ uri := some "https://maps.example/review2" }] }] }

/-- A grounding chunk carrying `snippetOnlyMaps`. -/
def snippetOnlyChunk : GroundingChunk := { maps := some snippetOnlyMaps }

/-! ## List containment helpers -/

/-- Containment is transitive. -/
theorem sub_trans {α} {p q r : List α} (h1 : p <:+: q) (h2 : q <:+: r) : p <:+: r := by
  obtain ⟨s, t, hst⟩ := h1
  obtain ⟨u, v, huv⟩ := h2
  exact ⟨u ++ s, t ++ v, by rw [← huv, ← hst]; simp⟩

/-- Containment is preserved by mapping. -/
theorem sub_map {α β} {p q : List α} (f : α → β) (h : p <:+: q) :
    p.map f <:+: q.map f := by
  obtain ⟨s, t, hst⟩ := h
  exact ⟨s.map f, t.map f, by rw [← hst]; simp⟩

/-- A contained list stays contained after extending on the right. -/
theorem sub_append_right {α} {p a : List α} (b : List α) (h : p <:+: a) :
    p <:+: a ++ b := by
  obtain ⟨s, t, hst⟩ := h
  exact ⟨s, t ++ b, by rw [← hst]; simp⟩

/-- A contained list stays contained after extending on the left by one
element. -/
theorem sub_cons_right {α} {p a : List α} (x : α) (h : p <:+: a) :
    p <:+: x :: a := by
  obtain ⟨s, t, hst⟩ := h
  exact ⟨x :: s, t, by simp [List.cons_append, hst]⟩

/-- An initial segment is contained. -/
theorem sub_of_pref {α} {p l : List α} (h : p <+: l) : p <:+: l := by
  obtain ⟨t, ht⟩ := h
  exact ⟨[], t, by simpa using ht⟩

/-- A list contained in `x :: l` is a prefix of `x :: l` or contained in
`l`. -/
theorem sub_cons_elim {α} {p l : List α} {x : α} (h : p <:+: x :: l) :
    p <+: x :: l ∨ p <:+: l := by
  obtain ⟨s, t, hst⟩ := h
  cases s with
  | nil => exact Or.inl ⟨t, by simpa using hst⟩
  | cons y s2 =>
    have h2 : s2 ++ p ++ t = l := by
      have := hst
      simp only [List.cons_append] at this
      exact (List.cons.injEq y _ x l ▸ this).2
    exact Or.inr ⟨s2, t, h2⟩

/-- A short enough initial segment of `a ++ z` is an initial segment of
`a`. -/
theorem pref_short {α} {p a z : List α} (h : p <+: a ++ z)
    (hlen : p.length ≤ a.length) : p <+: a := by
  induction p generalizing a with
  | nil => exact ⟨a, rfl⟩
  | cons x p2 ih =>
    cases a with
    | nil => simp at hlen
    | cons y a2 =>
      obtain ⟨t, ht⟩ := h
      have ht2 : x :: (p2 ++ t) = y :: (a2 ++ z) := by simpa using ht
      have hx : x = y := (List.cons.injEq x _ y _ ▸ ht2).1
      have htail : p2 ++ t = a2 ++ z := (List.cons.injEq x _ y _ ▸ ht2).2
      obtain ⟨t2, ht3⟩ := ih ⟨t, htail⟩ (by simpa using hlen)
      exact ⟨t2, by simp [hx, ht3]⟩

/-- A long enough initial segment of `a ++ c :: z` covers the position of
`c`. -/
theorem mem_of_pref_long {α} {p a z : List α} {c : α} (h : p <+: a ++ c :: z)
    (hlen : a.length < p.length) : c ∈ p := by
  induction p generalizing a with
  | nil => simp at hlen
  | cons x p2 ih =>
    cases a with
    | nil =>
      obtain ⟨t, ht⟩ := h
      have ht2 : x :: (p2 ++ t) = c :: z := by simpa using ht
      have hx : x = c := (List.cons.injEq x _ c _ ▸ ht2).1
      exact hx ▸ List.mem_cons_self x p2
    | cons y a2 =>
      obtain ⟨t, ht⟩ := h
      have ht2 : x :: (p2 ++ t) = y :: (a2 ++ c :: z) := by simpa using ht
      have htail : p2 ++ t = a2 ++ c :: z := (List.cons.injEq x _ y _ ▸ ht2).2
      exact List.mem_cons_of_mem x (ih ⟨t, htail⟩ (by simpa using hlen))

/-- Boundary lemma: a pattern avoiding the separator `c` and not contained in
`a` or in `b` is not contained in `a ++ c :: b`. -/
theorem not_sub_append_cons {α} {p a b : List α} {c : α}
    (hc : c ∉ p) (ha : ¬ p <:+: a) (hb : ¬ p <:+: b) : ¬ p <:+: a ++ c :: b := by
  induction a with
  | nil =>
    intro h
    rcases sub_cons_elim (by simpa using h) with hp | hi
    · cases p with
      | nil => exact hb ⟨[], b, rfl⟩
      | cons y p2 =>
        obtain ⟨t, ht⟩ := hp
        have ht2 : y :: (p2 ++ t) = c :: b := by simpa using ht
        have hy : y = c := (List.cons.injEq y _ c _ ▸ ht2).1
        exact hc (hy ▸ List.mem_cons_self y p2)
    · exact hb hi
  | cons x a2 ih =>
    intro h
    rcases sub_cons_elim (l := a2 ++ c :: b) h with hp | hi
    · by_cases hlen : p.length ≤ (x :: a2).length
      · exact ha (sub_of_pref (pref_short (a := x :: a2) (z := c :: b) hp hlen))
      · exact hc (mem_of_pref_long (a := x :: a2) (z := b) hp (by omega))
    · exact ih (fun h2 => ha (sub_cons_right x h2)) hi

/-- Two-separator boundary lemma: a pattern avoiding `c` that is contained
neither in `a`, nor in `t`, nor in `b`, is not contained in
`a ++ c :: (t ++ c :: b)`. -/
theorem not_sub_two_seps {α} {p a t b : List α} {c : α}
    (hc : c ∉ p) (ha : ¬ p <:+: a) (ht : ¬ p <:+: t) (hb : ¬ p <:+: b) :
    ¬ p <:+: a ++ c :: (t ++ c :: b) :=
  not_sub_append_cons hc ha (not_sub_append_cons hc ht hb)

/-! ## Structure of the composed prompt -/

/-- With truthy trimmed free text, the composed prompt splits as the part
before the free text, an opening quote, the trimmed free text, a closing
quote, and the part after the free text. -/
theorem composeQuery_data_split (ctx : SearchContext) (fc p : String)
    (h : jsTrim p ≠ "") :
    (composeQuery ctx fc p).data =
      beforeFreeText.data ++ '"' :: ((jsTrim p).data ++ '"' :: (afterFreeText fc ctx).data) := by
  have hq1 : ("The user is looking for: \"" : String).data =
      "The user is looking for: ".data ++ ['"'] := by decide
  have hq2 : ("\"." : String).data = '"' :: ".".data := by decide
  cases ctx <;> by_cases hfc : fc = "all" <;>
    simp [composeQuery, beforeFreeText, afterFreeText, categoryClause, areaNameOf,
      if_neg h, hfc, String.data_append, hq1, hq2, List.append_assoc]

/-- With falsy trimmed free text, the composed prompt is the one composed
from the empty free text. -/
theorem composeQuery_of_trim_empty (ctx : SearchContext) (fc p : String)
    (h : jsTrim p = "") :
    composeQuery ctx fc p = composeQuery ctx fc "" := by
  have h0 : jsTrim "" = "" := rfl
  simp [composeQuery, h, h0]

/-- The part after the free text is contained in the composed prompt. -/
theorem afterFreeText_sub_composeQuery (ctx : SearchContext) (fc p : String)
    (h : jsTrim p ≠ "") :
    (afterFreeText fc ctx).data <:+: (composeQuery ctx fc p).data := by
  rw [composeQuery_data_split ctx fc p h]
  exact ⟨beforeFreeText.data ++ '"' :: ((jsTrim p).data ++ ['"']), [],
    by simp [List.append_assoc]⟩

/-- With truthy trimmed free text and a pattern avoiding the quote character,
containment of the pattern in the composed prompt needs containment in one of
its three quote-delimited parts. -/
theorem composeQuery_blocks (ctx : SearchContext) (fc p : String)
    (hne : jsTrim p ≠ "") {pat : String}
    (hq : '"' ∉ pat.data)
    (hA : ¬ pat.data <:+: beforeFreeText.data)
    (hT : ¬ pat.data <:+: (jsTrim p).data)
    (hB : ¬ pat.data <:+: (afterFreeText fc ctx).data) :
    ¬ SubstringOf pat (composeQuery ctx fc p) := by
  rw [SubstringOf, composeQuery_data_split ctx fc p hne]
  exact not_sub_two_seps hq hA hT hB

/-- Helper for the corrected category-clause claim, truthy free-text case:
the lowercased label sits in the composed prompt unconditionally, and the
generic phrase does not whenever the free text avoids it. -/
theorem categoryClaimOfParts (ctx : SearchContext) (fc label p : String)
    (hne : jsTrim p ≠ "")
    (hlab : label.data.map Char.toLower <:+: (afterFreeText fc ctx).data.map Char.toLower)
    (hA : ¬ genericPhrase.data <:+: beforeFreeText.data)
    (hB : ¬ genericPhrase.data <:+: (afterFreeText fc ctx).data)
    (hq : '"' ∉ genericPhrase.data) :
    SubstringOfCI label (composeQuery ctx fc p) ∧
    (¬ SubstringOf genericPhrase (jsTrim p) →
      ¬ SubstringOf genericPhrase (composeQuery ctx fc p)) := by
  constructor
  · exact sub_trans hlab
      (sub_map Char.toLower (afterFreeText_sub_composeQuery ctx fc p hne))
  · intro hT
    exact composeQuery_blocks ctx fc p hne hq hA hT hB

/-! ## Characterization of the JavaScript Map deduplication -/

/-- `firstSeenUris` only depends on the membership of the seen list. -/
theorem firstSeenUris_congr {s1 s2 : List String}
    (h : ∀ u, u ∈ s1 ↔ u ∈ s2) : ∀ l, firstSeenUris s1 l = firstSeenUris s2 l := by
  intro l
  induction l generalizing s1 s2 with
  | nil => rfl
  | cons x xs ih =>
    simp only [firstSeenUris]
    by_cases hx : x.uri ∈ s1
    · rw [if_pos hx, if_pos ((h x.uri).mp hx), ih h]
    · rw [if_neg hx, if_neg (fun h2 => hx ((h x.uri).mpr h2))]
      have h2 : ∀ u, u ∈ x.uri :: s1 ↔ u ∈ x.uri :: s2 := by
        intro u
        simp [List.mem_cons, h u]
      rw [ih h2]

/-- The keys of the Map after inserting a list of candidates: the previous
keys followed by the not-yet-seen URIs in first-seen order. -/
theorem jsMap_keys (l : List GroundingUrl) :
    ∀ m : List (String × GroundingUrl),
      (l.foldl (fun m item => mapInsert m item.uri item) m).map Prod.fst =
        m.map Prod.fst ++ firstSeenUris (m.map Prod.fst) l := by
  induction l with
  | nil =>
    intro m
    simp [firstSeenUris]
  | cons x xs ih =>
    intro m
    rw [List.foldl_cons]
    by_cases hmem : x.uri ∈ m.map Prod.fst
    · have hany : m.any (fun p => decide (p.1 = x.uri)) = true := by
        rw [List.any_eq_true]
        obtain ⟨q, hq, hqe⟩ := List.mem_map.mp hmem
        exact ⟨q, hq, by simp [hqe]⟩
      rw [mapInsert, if_pos hany, ih]
      have hkeys : (m.map (fun p => if p.1 = x.uri then (x.uri, x) else p)).map Prod.fst =
          m.map Prod.fst := by
        rw [List.map_map]
        apply List.map_congr_left
        intro q _
        by_cases hq : q.1 = x.uri <;> simp [hq]
      rw [hkeys, firstSeenUris, if_pos hmem]
    · have hany : m.any (fun p => decide (p.1 = x.uri)) = false := by
        rw [List.any_eq_false]
        intro q hq
        simp only [decide_eq_true_eq]
        intro he
        exact hmem (List.mem_map.mpr ⟨q, hq, he⟩)
      rw [mapInsert, if_neg (by simp [hany]), ih, List.map_append]
      rw [firstSeenUris, if_neg hmem]
      have hcongr : firstSeenUris (m.map Prod.fst ++ [x.uri]) xs =
          firstSeenUris (x.uri :: m.map Prod.fst) xs := by
        apply firstSeenUris_congr
        intro u
        simp [List.mem_append, List.mem_cons, or_comm]
      simp [hcongr, List.append_assoc]

/-- Every entry of the Map after inserting a list of candidates either holds
the last candidate carrying its key, or was already present and its key does
not occur among the candidates. -/
theorem jsMap_values (l : List GroundingUrl) :
    ∀ m : List (String × GroundingUrl),
      ∀ q ∈ l.foldl (fun m item => mapInsert m item.uri item) m,
        some q.2 = lastEntryFor l q.1 ∨
          (q ∈ m ∧ l.filter (fun e => decide (e.uri = q.1)) = []) := by
  induction l with
  | nil =>
    intro m q hq
    exact Or.inr ⟨hq, rfl⟩
  | cons x xs ih =>
    intro m q hq
    rw [List.foldl_cons] at hq
    rcases ih (mapInsert m x.uri x) q hq with hlast | ⟨hqm, hfilt⟩
    · left
      have hne : xs.filter (fun e => decide (e.uri = q.1)) ≠ [] := by
        intro h0
        rw [lastEntryFor, h0] at hlast
        exact Option.noConfusion hlast
      rw [lastEntryFor, List.filter_cons]
      by_cases hx : x.uri = q.1
      · rw [if_pos (by simp [hx])]
        rw [lastEntryFor] at hlast
        rw [hlast]
        cases hfx : xs.filter (fun e => decide (e.uri = q.1)) with
        | nil => exact absurd hfx hne
        | cons y ys => rw [List.getLast?_cons_cons]
      · rw [if_neg (by simp [hx])]
        exact hlast
    · by_cases hany : m.any (fun p => decide (p.1 = x.uri)) = true
      · rw [mapInsert, if_pos hany] at hqm
        obtain ⟨r, hr, hre⟩ := List.mem_map.mp hqm
        by_cases hr1 : r.1 = x.uri
        · rw [if_pos hr1] at hre
          left
          have hq1 : q.1 = x.uri := by rw [← hre]
          have hq2 : q.2 = x := by rw [← hre]
          rw [lastEntryFor, List.filter_cons, if_pos (by simp [hq1]), hfilt, hq2]
          rfl
        · rw [if_neg hr1] at hre
          right
          subst hre
          refine ⟨hr, ?_⟩
          rw [List.filter_cons, if_neg (by simp; exact fun h0 => hr1 (h0 ▸ rfl)), hfilt]
      · rw [mapInsert, if_neg hany] at hqm
        rcases List.mem_append.mp hqm with hin | hone
        · right
          have hq1 : q.1 ≠ x.uri := by
            intro h0
            apply hany
            rw [List.any_eq_true]
            exact ⟨q, hin, by simp [h0]⟩
          refine ⟨hin, ?_⟩
          rw [List.filter_cons, if_neg (by simp; exact fun h0 => hq1 (h0 ▸ rfl)), hfilt]
        · left
          have hq : q = (x.uri, x) := by simpa using hone
          subst hq
          rw [lastEntryFor, List.filter_cons, if_pos (by simp), hfilt]
          rfl

/-- Every entry of the Map keys a candidate by its own URI. -/
theorem jsMap_consistent (l : List GroundingUrl) :
    ∀ m : List (String × GroundingUrl), (∀ q ∈ m, q.2.uri = q.1) →
      ∀ q ∈ l.foldl (fun m item => mapInsert m item.uri item) m, q.2.uri = q.1 := by
  induction l with
  | nil =>
    intro m hm q hq
    exact hm q hq
  | cons x xs ih =>
    intro m hm q hq
    rw [List.foldl_cons] at hq
    refine ih (mapInsert m x.uri x) ?_ q hq
    intro r hr
    rw [mapInsert] at hr
    by_cases hany : m.any (fun p => decide (p.1 = x.uri)) = true
    · rw [if_pos hany] at hr
      obtain ⟨w, hw, hwe⟩ := List.mem_map.mp hr
      by_cases hw1 : w.1 = x.uri
      · rw [if_pos hw1] at hwe
        rw [← hwe]
      · rw [if_neg hw1] at hwe
        exact hwe ▸ hm w hw
    · rw [if_neg hany] at hr
      rcases List.mem_append.mp hr with hin | hone
      · exact hm r hin
      · have : r = (x.uri, x) := by simpa using hone
        rw [this]

/-! ## Claim theorems -/

/-- Claim C4 (confirmed): when the search context is current location and the
device coordinate was not actually determined, `handleSearch` sets the
user-facing refusal message and returns before any network call: the outcome
is `refused`, which by construction issues no call to `getPlaceInfo`. -/
theorem c4_refusal (s : AppState)
    (hctx : s.searchContext = SearchContext.currentLocation)
    (hdet : s.actualUserLocationDetermined = false) :
    handleSearchStart s =
      SearchStep.refused { s with error := some currentLocationErrorMsg } := by
  simp [handleSearchStart, resolveTarget, hctx, hdet]

/-- Witness for C4 at a concrete undetermined state. -/
theorem c4_refusal_witness :
    undeterminedState.searchContext = SearchContext.currentLocation ∧
    undeterminedState.actualUserLocationDetermined = false ∧
    handleSearchStart undeterminedState =
      SearchStep.refused { undeterminedState with error := some currentLocationErrorMsg } :=
  ⟨rfl, rfl, c4_refusal undeterminedState rfl rfl⟩

/-- Claim C9 (confirmed): when `handleSearch` refuses a search because the
current-location coordinate is undetermined, every other piece of UI state
keeps its prior value — summary, URL list, loading flag, form fields and
location state are unchanged — and only the error message is set. -/
theorem c9_refusal_preserves (s : AppState)
    (hctx : s.searchContext = SearchContext.currentLocation)
    (hdet : s.actualUserLocationDetermined = false) :
    ∃ s2, handleSearchStart s = SearchStep.refused s2 ∧
      s2.generalSummary = s.generalSummary ∧
      s2.responseUrls = s.responseUrls ∧
      s2.loading = s.loading ∧
      s2.prompt = s.prompt ∧
      s2.filterCategory = s.filterCategory ∧
      s2.searchContext = s.searchContext ∧
      s2.userLocation = s.userLocation ∧
      s2.actualUserLocationDetermined = s.actualUserLocationDetermined ∧
      s2.error = some currentLocationErrorMsg := by
  refine ⟨{ s with error := some currentLocationErrorMsg },
    ?_, rfl, rfl, rfl, rfl, rfl, rfl, rfl, rfl, rfl⟩
  simp [handleSearchStart, resolveTarget, hctx, hdet]

/-- Witness for C9 at a concrete undetermined state carrying previous
results. -/
theorem c9_refusal_preserves_witness :
    undeterminedState.searchContext = SearchContext.currentLocation ∧
    ∃ s2, handleSearchStart undeterminedState = SearchStep.refused s2 ∧
      s2.generalSummary = undeterminedState.generalSummary ∧
      s2.responseUrls = undeterminedState.responseUrls ∧
      s2.loading = undeterminedState.loading ∧
      s2.prompt = undeterminedState.prompt ∧
      s2.filterCategory = undeterminedState.filterCategory ∧
      s2.searchContext = undeterminedState.searchContext ∧
      s2.userLocation = undeterminedState.userLocation ∧
      s2.actualUserLocationDetermined = undeterminedState.actualUserLocationDetermined ∧
      s2.error = some currentLocationErrorMsg :=
  ⟨rfl, c9_refusal_preserves undeterminedState rfl rfl⟩

/-- Counterexample to C5 as stated: the whitespace-only prompt is non-empty,
yet the query sent to the API is the default prompt, not the given prompt. -/
theorem c5_counterexample :
    (" " : String) ≠ "" ∧ effectiveQuery " " ≠ " " ∧
    effectiveQuery " " = defaultPrompt := by
  refine ⟨by decide, by decide, by decide⟩

/-- Claim C5 (corrected): when the prompt is empty after trimming the default
prompt is sent to the API; otherwise the trimmed prompt — not necessarily the
given prompt verbatim — is sent. -/
theorem c5_effective (q : String) :
    (jsTrim q = "" → effectiveQuery q = defaultPrompt) ∧
    (jsTrim q ≠ "" → effectiveQuery q = jsTrim q) := by
  constructor <;> intro h <;> simp [effectiveQuery, h]

/-- Witness for C5 at an empty and at a padded prompt. -/
theorem c5_effective_witness :
    effectiveQuery "" = defaultPrompt ∧
    effectiveQuery "  hotels near me  " = jsTrim "  hotels near me  " :=
  ⟨(c5_effective "").1 rfl, (c5_effective "  hotels near me  ").2 (by decide)⟩

/-- Counterexample to C6 as stated: the generic error is thrown, but an
original error whose detail is the word network does occur inside the generic
message, so the thrown message is not free of the original detail. -/
theorem c6_counterexample :
    getPlaceInfo defaultKottayamCoords "places to visit" failingApi =
      Except.error fetchErrorMessage ∧
    SubstringOf "network" fetchErrorMessage :=
  ⟨rfl, by decide⟩

/-- Claim C6 (corrected): whenever the underlying API call fails with any
exception, `getPlaceInfo` re-raises the single generic fetch error, whose
message is one fixed constant independent of the original error — the
original detail is never incorporated, though it may coincidentally occur
inside the constant. -/
theorem c6_generic_error (coords : LatLng) (query : String)
    (api : LatLng → String → Except GeminiError GenerateContentResponse)
    (e : GeminiError) (h : api coords (effectiveQuery query) = Except.error e) :
    getPlaceInfo coords query api = Except.error fetchErrorMessage := by
  simp [getPlaceInfo, h]

/-- Witness for C6 at a concrete failing oracle. -/
theorem c6_generic_error_witness :
    failingApi defaultKottayamCoords (effectiveQuery "anything") =
      Except.error { message := "network" } ∧
    getPlaceInfo defaultKottayamCoords "anything" failingApi =
      Except.error fetchErrorMessage :=
  ⟨rfl, c6_generic_error defaultKottayamCoords "anything" failingApi
    { message := "network" } rfl⟩

/-- Claim C7 (confirmed): for a response with zero grounding chunks the URL
list is empty and the summary is still returned as the trimmed plain text
body of the response. -/
theorem c7_no_chunks (r : GenerateContentResponse) (h : responseChunks r = []) :
    processResponse r = { summary := jsTrim r.text, places := [], urls := [] } := by
  simp [processResponse, candidateUrls, h, dedupUrls, jsMapEntries]

/-- Witness for C7 at a response without candidates. -/
theorem c7_no_chunks_witness :
    responseChunks bareResponse = [] ∧
    processResponse bareResponse =
      { summary := jsTrim bareResponse.text, places := [], urls := [] } :=
  ⟨rfl, c7_no_chunks bareResponse rfl⟩

/-- Claim C8 (confirmed): for every coordinate, prompt and API behaviour, a
successfully returned result of `getPlaceInfo` has an empty places list. -/
theorem c8_places_empty (coords : LatLng) (query : String)
    (api : LatLng → String → Except GeminiError GenerateContentResponse)
    (result : MapsGroundingResult)
    (h : getPlaceInfo coords query api = Except.ok result) :
    result.places = [] := by
  rw [getPlaceInfo] at h
  cases hr : api coords (effectiveQuery query) with
  | ok response =>
    rw [hr] at h
    have h2 : processResponse response = result := by simpa using h
    rw [← h2]
    rfl
  | error e =>
    rw [hr] at h
    exact absurd h (by simp)

/-- Witness for C8 at a concrete succeeding oracle. -/
theorem c8_places_empty_witness :
    getPlaceInfo defaultKottayamCoords "" succeedingApi =
      Except.ok (processResponse bareResponse) ∧
    (processResponse bareResponse).places = [] :=
  ⟨rfl, c8_places_empty defaultKottayamCoords "" succeedingApi
    (processResponse bareResponse) rfl⟩

/-- Counterexample to C1 as stated: a URI occurring first as a titled direct
link and again as a titleless review-snippet link is deduplicated to a single
entry carrying the title of its last occurrence, not of its first. -/
theorem c1_counterexample :
    candidateUrls dupResponse =
      [{ uri := "https://maps.example/place1", title := some "Place One" },
       { uri := "https://maps.example/place1", title := none }] ∧
    (processResponse dupResponse).urls =
      [{ uri := "https://maps.example/place1", title := none }] ∧
    (processResponse dupResponse).urls ≠
      [{ uri := "https://maps.example/place1", title := some "Place One" }] := by
  refine ⟨by decide, by decide, by decide⟩

/-- Claim C1 (corrected): the deduplicated URL list contains each distinct
URI of the candidate list exactly once, in first-seen order, and each URI is
associated with the entire candidate entry — hence the title — of its last
occurrence in the candidate list, not of its first. -/
theorem c1_dedup (urls : List GroundingUrl) :
    (dedupUrls urls).map (fun e => e.uri) = firstSeenUris [] urls ∧
    ∀ e ∈ dedupUrls urls, some e = lastEntryFor urls e.uri := by
  have hcons : ∀ q ∈ jsMapEntries urls, q.2.uri = q.1 :=
    jsMap_consistent urls [] (by intro q hq; simp at hq)
  constructor
  · rw [dedupUrls, List.map_map]
    have h1 : (jsMapEntries urls).map ((fun e => e.uri) ∘ Prod.snd) =
        (jsMapEntries urls).map Prod.fst :=
      List.map_congr_left (fun q hq => hcons q hq)
    rw [h1]
    have hkeys := jsMap_keys urls []
    simpa using hkeys
  · intro e he
    rw [dedupUrls] at he
    obtain ⟨q, hq, hqe⟩ := List.mem_map.mp he
    rcases jsMap_values urls [] q hq with hlast | ⟨hqm, _⟩
    · rw [← hqe, hcons q hq]
      exact hlast
    · simp at hqm

/-- Witness for C1 at a concrete candidate list with a duplicated URI. -/
theorem c1_dedup_witness :
    (dedupUrls
        [{ uri := "https://a", title := some "T" },
         { uri := "https://a", title := none },
         { uri := "https://b", title := some "U" }]).map (fun e => e.uri) =
      firstSeenUris []
        [{ uri := "https://a", title := some "T" },
         { uri := "https://a", title := none },
         { uri := "https://b", title := some "U" }] ∧
    some { uri := "https://a", title := none } =
      lastEntryFor
        [{ uri := "https://a", title := some "T" },
         { uri := "https://a", title := none },
         { uri := "https://b", title := some "U" }]
        ({ uri := "https://a", title := none } : GroundingUrl).uri :=
  ⟨(c1_dedup _).1,
   (c1_dedup
      [{ uri := "https://a", title := some "T" },
       { uri := "https://a", title := none },
       { uri := "https://b", title := some "U" }]).2
     ({ uri := "https://a", title := none } : GroundingUrl) (by decide)⟩

/-- Counterexample to C2 as stated: a non-empty free text padded with spaces
is not contained verbatim in the composed prompt (only its trimmed form
is). -/
theorem c2_counterexample :
    (" x " : String) ≠ "" ∧
    ¬ SubstringOf " x " (composeQuery SearchContext.kottayam "all" " x ") := by
  refine ⟨by decide, by decide⟩

/-- Claim C2 (corrected): for every free-text input whose trimmed form is
non-empty, the composed prompt contains that trimmed form verbatim (the
source appends the trimmed text, so padded input is not contained as
given). -/
theorem c2_trimmed_text (ctx : SearchContext) (fc p : String)
    (h : jsTrim p ≠ "") :
    SubstringOf (jsTrim p) (composeQuery ctx fc p) := by
  rw [SubstringOf, composeQuery_data_split ctx fc p h]
  exact ⟨beforeFreeText.data ++ ['"'], '"' :: (afterFreeText fc ctx).data,
    by simp [List.append_assoc]⟩

/-- Witness for C2 at a concrete padded free text. -/
theorem c2_trimmed_text_witness :
    jsTrim " best pizza " ≠ "" ∧
    SubstringOf (jsTrim " best pizza ")
      (composeQuery SearchContext.currentLocation "restaurants" " best pizza ") :=
  ⟨by decide,
   c2_trimmed_text SearchContext.currentLocation "restaurants" " best pizza " (by decide)⟩

/-- Mapping the snippet URL entries of one source to their URIs gives exactly
the truthy snippet URIs. -/
theorem snippets_map_uri (snippets : List ReviewSnippet) :
    (snippets.filterMap fun snippet =>
      match snippet.uri with
      | some uri => if uri = "" then none else some ({ uri := uri, title := none } : GroundingUrl)
      | none => none).map (fun e => e.uri) =
    snippets.filterMap fun snippet =>
      match snippet.uri with
      | some uri => if uri = "" then none else some uri
      | none => none := by
  induction snippets with
  | nil => rfl
  | cons sn rest ih =>
    rw [List.filterMap_cons, List.filterMap_cons]
    cases hsu : sn.uri with
    | none => exact ih
    | some uri =>
      by_cases hue : uri = "" <;> simp [hue, ih]

/-- Mapping the snippet URL entries of a source list to their URIs gives
exactly the truthy snippet URIs of all sources. -/
theorem sources_map_uri (sources : List PlaceAnswerSource) :
    (sources.flatMap fun source =>
      match source.reviewSnippets with
      | none => ([] : List GroundingUrl)
      | some snippets =>
        snippets.filterMap fun snippet =>
          match snippet.uri with
          | some uri => if uri = "" then none else some { uri := uri, title := none }
          | none => none).map (fun e => e.uri) =
    sources.flatMap (fun source =>
      (source.reviewSnippets.getD ([] : List ReviewSnippet)).filterMap fun snippet =>
        match snippet.uri with
        | some uri => if uri = "" then none else some uri
        | none => none) := by
  induction sources with
  | nil => rfl
  | cons s rest ih =>
    rw [List.flatMap_cons, List.flatMap_cons, List.map_append, ih]
    congr 1
    cases hrs : s.reviewSnippets with
    | none => simp
    | some snippets =>
      simp only [Option.getD_some]
      exact snippets_map_uri snippets

/-- Claim C10 (confirmed): a chunk with a `maps` annotation but no top-level
URI contributes no direct link, yet contributes exactly the URIs nested under
its place answer sources review snippets, each without a title; a chunk
without a `maps` annotation contributes nothing. -/
theorem c10_chunk_extraction :
    (∀ chunk : GroundingChunk, chunk.maps = none → chunkUrls chunk = []) ∧
    (∀ (chunk : GroundingChunk) (maps : GroundingChunkMaps),
      chunk.maps = some maps → maps.uri = none →
      (chunkUrls chunk).map (fun e => e.uri) = snippetUris maps ∧
      ∀ e ∈ chunkUrls chunk, e.title = none) := by
  constructor
  · intro chunk h
    simp [chunkUrls, h]
  · intro chunk maps hc hu
    constructor
    · simp only [chunkUrls, hc, hu, List.nil_append]
      cases hps : maps.placeAnswerSources with
      | none => simp [snippetUris, hps]
      | some sources =>
        simp only [snippetUris, hps, Option.getD_some]
        exact sources_map_uri sources
    · intro e he
      simp only [chunkUrls, hc, hu, List.nil_append] at he
      cases hps : maps.placeAnswerSources with
      | none =>
        rw [hps] at he
        simp at he
      | some sources =>
        rw [hps] at he
        rw [List.mem_flatMap] at he
        obtain ⟨source, _, he2⟩ := he
        cases hrs : source.reviewSnippets with
        | none =>
          rw [hrs] at he2
          simp at he2
        | some snippets =>
          rw [hrs] at he2
          rw [List.mem_filterMap] at he2
          obtain ⟨snippet, _, hse⟩ := he2
          cases hsu : snippet.uri with
          | none =>
            rw [hsu] at hse
            exact absurd hse (by simp)
          | some uri =>
            rw [hsu] at hse
            by_cases hue : uri = ""
            · simp [hue] at hse
            · simp only [hue, if_false, if_neg hue] at hse
              have h3 : ({ uri := uri, title := none } : GroundingUrl) = e := by
                simpa using hse
              subst h3
              rfl

/-- Witness for C10 at a chunk without annotation and a snippet-only chunk. -/
theorem c10_chunk_extraction_witness :
    chunkUrls plainChunk = [] ∧
    (chunkUrls snippetOnlyChunk).map (fun e => e.uri) = snippetUris snippetOnlyMaps ∧
    ∀ e ∈ chunkUrls snippetOnlyChunk, e.title = none :=
  ⟨c10_chunk_extraction.1 plainChunk rfl,
   (c10_chunk_extraction.2 snippetOnlyChunk snippetOnlyMaps rfl rfl).1,
   (c10_chunk_extraction.2 snippetOnlyChunk snippetOnlyMaps rfl rfl).2⟩

/-- The generic phrase contains no quote character. -/
theorem genericPhrase_no_quote : '"' ∉ genericPhrase.data := by decide

/-- The generic phrase does not occur before the free text. -/
theorem genericPhrase_not_before : ¬ genericPhrase.data <:+: beforeFreeText.data := by
  decide

/-- Counterexample to C3 as stated: with a specific category filter, free
text consisting of the generic phrase itself makes the composed prompt
contain the generic multi-category phrase. -/
theorem c3_counterexample :
    ("restaurants", "Restaurants") ∈ filterOptions ∧
    "restaurants" ≠ "all" ∧
    SubstringOf genericPhrase
      (composeQuery SearchContext.kottayam "restaurants" "various types of places") := by
  refine ⟨by decide, by decide, by decide⟩

/-- Claim C3 (corrected): for every category filter other than `all` and
every free text, the composed prompt contains the filter label
case-insensitively, and — provided the trimmed free text does not itself
contain the phrase — does not contain the generic phrase about various types
of places; for the filter `all`, the composed prompt contains the generic
multi-category clause. -/
theorem c3_category_clauses :
    (∀ (ctx : SearchContext) (p value label : String),
        (value, label) ∈ filterOptions → value ≠ "all" →
        SubstringOfCI label (composeQuery ctx value p) ∧
        (¬ SubstringOf genericPhrase (jsTrim p) →
          ¬ SubstringOf genericPhrase (composeQuery ctx value p))) ∧
    (∀ (ctx : SearchContext) (p : String),
        SubstringOf genericClause (composeQuery ctx "all" p)) := by
  constructor
  · intro ctx p value label hmem hval
    simp only [filterOptions, List.mem_cons, List.not_mem_nil, or_false] at hmem
    rcases hmem with h | h | h | h | h | h <;>
      rw [Prod.mk.injEq] at h <;> obtain ⟨h1, h2⟩ := h <;> subst h1 <;> subst h2
    · exact absurd rfl hval
    all_goals {
      by_cases hne : jsTrim p = ""
      · rw [composeQuery_of_trim_empty _ _ _ hne]
        cases ctx <;> exact ⟨by decide, fun _ => by decide⟩
      · cases ctx <;>
          exact categoryClaimOfParts _ _ _ p hne (by decide)
            genericPhrase_not_before (by decide) genericPhrase_no_quote
    }
  · intro ctx p
    by_cases hne : jsTrim p = ""
    · rw [composeQuery_of_trim_empty _ _ _ hne]
      cases ctx <;> decide
    · have h1 : genericClause.data <:+: (afterFreeText "all" ctx).data := by
        cases ctx <;> decide
      exact sub_trans h1 (afterFreeText_sub_composeQuery ctx "all" p hne)

/-- Witness for C3 at concrete filters and free texts. -/
theorem c3_category_clauses_witness :
    (SubstringOfCI "Restaurants"
        (composeQuery SearchContext.kottayam "restaurants" " sushi bars ") ∧
      ¬ SubstringOf genericPhrase
        (composeQuery SearchContext.kottayam "restaurants" " sushi bars ")) ∧
    SubstringOf genericClause
      (composeQuery SearchContext.currentLocation "all" "anything") :=
  ⟨⟨(c3_category_clauses.1 SearchContext.kottayam " sushi bars " "restaurants" "Restaurants"
      (by decide) (by decide)).1,
    (c3_category_clauses.1 SearchContext.kottayam " sushi bars " "restaurants" "Restaurants"
      (by decide) (by decide)).2 (by decide)⟩,
   c3_category_clauses.2 SearchContext.currentLocation "anything"⟩
